import Mathlib

/-!
# Verification of the flare cluster-diagnostic engine

Shallow embedding of the flare check engine: the `Result` model, the
`ClusterResourceProvider` boundary, the nine diagnostic checks from the
check library, and the concurrent result-collecting runner from `main`.

Modelling conventions:
* a Go `error` value is embedded as `Option String` (`none` = nil error;
  `some e` carries the message);
* provider list calls return `Except String (List _)` (`.error e` = the
  call failed);
* `resource.Quantity` values are embedded at fixed resolution: CPU in
  milli-units and memory in bytes, with `Quantity.Add` exact addition and
  `Quantity.Value()` the value rounded up to whole units;
* a nil-pointer dereference (the webhooks check dereferences each entry's
  `FailurePolicy` pointer unconditionally) is embedded as the `.error`
  branch of `Except Unit`.
-/

set_option autoImplicit false

namespace Flare

/-- The `Result` struct from `main.go`: name, pass flag, free-text details,
and the optional underlying error. -/
structure Result where
  name : String
  pass : Bool
  details : String
  err : Option String
deriving DecidableEq, Repr

/-- A node condition: `Type` and `Status` fields as used by the nodes
check. -/
structure NodeCondition where
  type : String
  status : String
deriving DecidableEq, Repr

/-- A cluster node: name, allocatable CPU (milli-units), allocatable
memory (bytes), and status conditions. -/
structure Node where
  name : String
  allocatableCpuMilli : Nat
  allocatableMemBytes : Nat
  conditions : List NodeCondition
deriving DecidableEq, Repr

/-- Declared resource limits of one container (`Resources.Limits`); a
missing limit is the zero quantity, exactly as `Limits.Cpu()` /
`Limits.Memory()` return the zero `Quantity` for an absent entry. -/
structure ResourceLimits where
  cpuMilli : Nat
  memBytes : Nat
deriving DecidableEq, Repr

/-- A container spec entry: name and declared limits. -/
structure Container where
  name : String
  limits : ResourceLimits
deriving DecidableEq, Repr

/-- A container status entry: restart count, readiness, and the reason of
`LastTerminationState.Terminated` (`none` when `Terminated` is nil). -/
structure ContainerStatus where
  name : String
  restartCount : Nat
  ready : Bool
  lastTerminationTerminatedReason : Option String
deriving DecidableEq, Repr

/-- A pod: metadata name/namespace, spec containers, and status container
statuses. -/
structure Pod where
  name : String
  nspace : String
  containers : List Container
  statuses : List ContainerStatus
deriving DecidableEq, Repr

/-- An endpoints object: name and its subsets (contents unused by the
check, only the count matters). -/
structure Endpoints where
  name : String
  subsets : List Unit
deriving DecidableEq, Repr

/-- One webhook entry of an admission webhook configuration; the
`FailurePolicy` field is a pointer, hence `Option`. -/
structure Webhook where
  name : String
  failurePolicy : Option String
deriving DecidableEq, Repr

/-- A (mutating or validating) webhook configuration: its webhook
entries. -/
structure WebhookConfiguration where
  webhooks : List Webhook
deriving DecidableEq, Repr

/-- A cluster event as consumed by the events check. -/
structure Event where
  nspace : String
  type : String
  involvedObjectKind : String
  involvedObjectName : String
  message : String
deriving DecidableEq, Repr

/-- A cron job: namespace, name, the list of currently active runs
(`Status.Active`, contents unused), and the spec concurrency policy
(`"Allow"` is `v1batch.AllowConcurrent`). -/
structure CronJob where
  nspace : String
  name : String
  active : List Unit
  concurrencyPolicy : String
deriving DecidableEq, Repr

/-- The read-only cluster accessor: each list call either returns the
listed collection or fails. `listPods` takes the namespace (`""` = all)
and the field selector (`""` = none), matching the clientset call shapes
in the source. -/
structure Provider where
  listNodes : Except String (List Node)
  listPods : String → String → Except String (List Pod)
  listEndpoints : String → Except String (List Endpoints)
  listMutatingWebhookConfigurations : Except String (List WebhookConfiguration)
  listValidatingWebhookConfigurations : Except String (List WebhookConfiguration)
  listEvents : String → Except String (List Event)
  listCronJobs : String → Except String (List CronJob)

/-- `Quantity.Value()`: the quantity rounded up to whole units
(milli-units → units for CPU). -/
def quantValue (milli : Nat) : Nat :=
  (milli + 999) / 1000

/-- Canonical string form of a CPU quantity held in milli-units, as
printed by `Quantity.String()` for milli-resolution decimal quantities. -/
def cpuQuantStr (milli : Nat) : String :=
  if milli % 1000 = 0 then toString (milli / 1000) else toString milli ++ "m"

/-- String form of a memory quantity in bytes. -/
def memQuantStr (bytes : Nat) : String :=
  toString bytes

/-- Concatenation of the string contributions of the elements of a list;
the shape every check's info-accumulating loop reduces to. -/
def strFold {α : Type} (f : α → String) : List α → String
  | [] => ""
  | x :: xs => f x ++ strFold f xs

/-- `sub` occurs contiguously inside `s`. -/
def ContainsSubStr (sub s : String) : Prop :=
  ∃ a b : String, s = a ++ sub ++ b

/-! ## The nine checks (from the check library file) -/

/-- `cronJobThreshold = 100`, the fixed active-run threshold of the
cron-job check. -/
def cronJobThreshold : Nat := 100

/-- The control-plane connectivity check: lists nodes, fails only when
the call errors. -/
def cp (cs : Provider) : Result :=
  match cs.listNodes with
  | .error e => ⟨"control plane connectivity", false, "connectivity failure", some e⟩
  | .ok _ => ⟨"control plane connectivity", true, "", none⟩

/-- The per-node portion of the overcommit check body: sum the CPU and
memory limits of all containers of the pods on the node, and produce the
info text the loop iteration appends (empty when the node is within
allocatable on both resources). -/
def overCommitNodeInfo (n : Node) (pods : List Pod) : String :=
  let cpuLimits := pods.foldl (fun acc pod =>
    pod.containers.foldl (fun a c => a + c.limits.cpuMilli) acc) 0
  let memLimits := pods.foldl (fun acc pod =>
    pod.containers.foldl (fun a c => a + c.limits.memBytes) acc) 0
  (if quantValue n.allocatableCpuMilli < quantValue cpuLimits then
      "node " ++ n.name ++ " is overcommited on CPU! Requested: " ++ cpuQuantStr cpuLimits
        ++ " Allocateable: " ++ cpuQuantStr n.allocatableCpuMilli ++ " \n"
    else "") ++
  (if n.allocatableMemBytes < memLimits then
      "node " ++ n.name ++ " is overcommited on Memory! Requested: " ++ memQuantStr memLimits
        ++ " Allocateable: " ++ memQuantStr n.allocatableMemBytes ++ "\n"
    else "")

/-- The node loop of the overcommit check: per node, list that node's
pods (early `return` with the error on failure), accumulate the per-node
info, and at the end produce the final `Result` — whose `Pass` field the
source sets to `true` on both final branches. -/
def overCommitLoop (cs : Provider) : List Node → String → Result
  | [], info =>
      if info = "" then ⟨"overcommit", true, "", none⟩
      else ⟨"overcommit", true, info, none⟩
  | n :: rest, info =>
      match cs.listPods "" ("spec.nodeName=" ++ n.name) with
      | .error e => ⟨"overcommit", false, "node(s) overcommitted", some e⟩
      | .ok pods => overCommitLoop cs rest (info ++ overCommitNodeInfo n pods)

/-- The overcommit check. -/
def overCommit (cs : Provider) : Result :=
  match cs.listNodes with
  | .error e => ⟨"overcommit", false, "node(s) overcommitted", some e⟩
  | .ok ns => overCommitLoop cs ns ""

/-- The line the endpoints check appends for one endpoints object (empty
when the object has at least one subset). -/
def endpointChunk (e : Endpoints) : String :=
  if e.subsets.length < 1 then "Service " ++ e.name ++ " has no active endpoints!\n" else ""

/-- Body of the endpoints check, as a function of the list call's
outcome. -/
def endpointsOf (res : Except String (List Endpoints)) : Result :=
  match res with
  | .error e => ⟨"endpoints", false, "getting endpoints", some e⟩
  | .ok items =>
      let info := items.foldl (fun acc x => acc ++ endpointChunk x) ""
      if info = "" then ⟨"endpoints", true, "", none⟩
      else ⟨"endpoints", false, info, none⟩

/-- The endpoints check: lists endpoints across all namespaces. -/
def endpoints (cs : Provider) : Result :=
  endpointsOf (cs.listEndpoints "")

/-- The line the webhooks check appends for a webhook whose failure
policy is `"Fail"`; `kind` is `"Mutating"` or `"Validating"`. -/
def webhookLine (kind : String) (w : Webhook) : String :=
  kind ++ " Webhook: " ++ w.name ++ " has a failurePolicy set to 'Fail'.\n"

/-- Inner loop of the webhooks check over the entries of one
configuration; dereferencing a nil `FailurePolicy` pointer is the
`.error` branch. -/
def scanWebhookList (kind : String) : List Webhook → String → Except Unit String
  | [], info => .ok info
  | w :: ws, info =>
      match w.failurePolicy with
      | none => .error ()
      | some fp =>
          scanWebhookList kind ws (if fp = "Fail" then info ++ webhookLine kind w else info)

/-- Outer loop of the webhooks check over a list of configurations. -/
def scanWebhookConfigs (kind : String) : List WebhookConfiguration → String → Except Unit String
  | [], info => .ok info
  | c :: rest, info =>
      match scanWebhookList kind c.webhooks info with
      | .error u => .error u
      | .ok info2 => scanWebhookConfigs kind rest info2

/-- The webhooks check: lists mutating then validating webhook
configurations, then scans both lists; the scan faults (nil-pointer
dereference) when an entry's failure policy is absent. -/
def webhooks (cs : Provider) : Except Unit Result :=
  match cs.listMutatingWebhookConfigurations with
  | .error e => .ok ⟨"webhooks", false, "getting mutatingwebhookconfigurations", some e⟩
  | .ok muts =>
      match cs.listValidatingWebhookConfigurations with
      | .error e => .ok ⟨"webhooks", false, "gettingvalidatingwebhookconfigurations", some e⟩
      | .ok vals =>
          match scanWebhookConfigs "Mutating" muts "" with
          | .error u => .error u
          | .ok info1 =>
              match scanWebhookConfigs "Validating" vals info1 with
              | .error u => .error u
              | .ok info =>
                  if info = "" then .ok ⟨"webhooks", true, "", none⟩
                  else .ok ⟨"webhooks", false, info, none⟩

/-- The line the events check appends for a `"Warning"`-type event
(empty otherwise). -/
def eventChunk (ev : Event) : String :=
  if ev.type = "Warning" then
    ev.nspace ++ " " ++ ev.involvedObjectKind ++ "/" ++ ev.involvedObjectName ++ " "
      ++ ev.type ++ " " ++ ev.message ++ "\n"
  else ""

/-- Body of the events check, as a function of the list call's
outcome; on error the details text is the error's own message. -/
def eventsOf (res : Except String (List Event)) : Result :=
  match res with
  | .error e => ⟨"events", false, e, some e⟩
  | .ok items =>
      let info := items.foldl (fun acc x => acc ++ eventChunk x) ""
      if info = "" then ⟨"events", true, "", none⟩
      else ⟨"events", false, info, none⟩

/-- The events check: lists events across all namespaces. -/
def events (cs : Provider) : Result :=
  eventsOf (cs.listEvents "")

/-- Body of the node-readiness check: the nested loop appends a line for
every condition of type `"Ready"` whose status is `"False"`. -/
def nodesOf (res : Except String (List Node)) : Result :=
  match res with
  | .error e => ⟨"nodes", false, e, some e⟩
  | .ok ns =>
      let info := ns.foldl (fun acc n =>
        n.conditions.foldl (fun a c =>
          if c.type = "Ready" then
            if c.status = "False" then a ++ ("Node: " ++ n.name ++ " is NotReady") else a
          else a) acc) ""
      if info ≠ "" then ⟨"nodes", false, info, none⟩
      else ⟨"nodes", true, "", none⟩

/-- The node-readiness check. -/
def nodes (cs : Provider) : Result :=
  nodesOf cs.listNodes

/-- Body of the infra-pod-health check: per container status, a line for
a positive restart count and a line for a non-ready container. -/
def infraOf (res : Except String (List Pod)) : Result :=
  match res with
  | .error e => ⟨"infra", false, "failed to get kube-system pods", some e⟩
  | .ok pods =>
      let info := pods.foldl (fun acc p =>
        p.statuses.foldl (fun a c =>
          let a := if 0 < c.restartCount then
              a ++ ("Container restarts Detected! Pod: " ++ p.name
                ++ "  container: " ++ c.name ++ "\n")
            else a
          if !c.ready then
            a ++ ("Container 'Not Ready' Detected! Pod: " ++ p.name
              ++ "  in container: " ++ c.name ++ "\n")
          else a) acc) ""
      if info = "" then ⟨"infra", true, "", none⟩
      else ⟨"infra", false, info, none⟩

/-- The infra check: lists the pods of the `kube-system` namespace. -/
def infra (cs : Provider) : Result :=
  infraOf (cs.listPods "kube-system" "")

/-- The too-many-active-jobs line of the cron-job check. -/
def cronTooManyLine (c : CronJob) : String :=
  "Cronjob " ++ c.nspace ++ "/" ++ c.name ++ ", has too many active jobs: "
    ++ toString c.active.length ++ "\n"

/-- The AllowConcurrent advisory line of the cron-job check. -/
def cronAllowLine (c : CronJob) : String :=
  "⚠️ Cronjob " ++ c.name ++ ", is set to AllowConcurrent\n"

/-- One iteration of the cron-job loop over the running `(pass, info)`
pair: flip `pass` and append when the active-run count exceeds the
threshold; append the advisory (without touching `pass`) when the
concurrency policy is `"Allow"`. -/
def cronStep (acc : Bool × String) (c : CronJob) : Bool × String :=
  let acc := if cronJobThreshold < c.active.length then (false, acc.2 ++ cronTooManyLine c) else acc
  if c.concurrencyPolicy = "Allow" then (acc.1, acc.2 ++ cronAllowLine c) else acc

/-- Body of the cron-job check, as a function of the list call's
outcome. -/
def cronjobOf (res : Except String (List CronJob)) : Result :=
  match res with
  | .error e => ⟨"cronjobs", false, "Failed to get cronjobs", some e⟩
  | .ok jobs =>
      let r := jobs.foldl cronStep (true, "")
      ⟨"cronjobs", r.1, r.2, none⟩

/-- The cron-job check: lists cron jobs across all namespaces. -/
def cronjob (cs : Provider) : Result :=
  cronjobOf (cs.listCronJobs "")

/-- The line the OOM check appends for one flagged pod. -/
def oomLine (p : Pod) : String :=
  "Pod " ++ p.nspace ++ "/" ++ p.name ++ " has previous OOMKilled state\n"

/-- Inner loop of the OOM check over one pod's container statuses,
updating the running `(pass, info)` pair: a recorded last termination
with reason `"OOMKilled"` flips `pass` and appends the pod's line. -/
def oomPodFold (p : Pod) (acc : Bool × String) : Bool × String :=
  p.statuses.foldl (fun a st =>
    match st.lastTerminationTerminatedReason with
    | some r => if r = "OOMKilled" then (false, a.2 ++ oomLine p) else a
    | none => a) acc

/-- Body of the OOM check, as a function of the list call's outcome. -/
def oomkilledOf (res : Except String (List Pod)) : Result :=
  match res with
  | .error e => ⟨"oomkilled", false, "Failed to get pods", some e⟩
  | .ok pods =>
      let r := pods.foldl (fun acc p => oomPodFold p acc) (true, "")
      ⟨"oomkilled", r.1, r.2, none⟩

/-- The OOM check: lists pods across all namespaces. -/
def oomkilled (cs : Provider) : Result :=
  oomkilledOf (cs.listPods "" "")

/-- Lift a total check into the fault-aware check type. -/
def checkE (c : Provider → Result) : Provider → Except Unit Result :=
  fun cs => .ok (c cs)

/-- The shipped registry, in source order. -/
def checks : List (Provider → Except Unit Result) :=
  [checkE cp, checkE endpoints, checkE events, checkE infra, checkE nodes,
   checkE overCommit, webhooks, checkE cronjob, checkE oomkilled]

/-- One sequential evaluation of every registered check against a
provider snapshot (the per-check computation, independent of the
scheduling of the concurrent tasks). -/
def runChecks (cs : Provider) : Except Unit (List Result) :=
  checks.mapM (fun c => c cs)

/-! ## The result-collecting runner of `main`

`main` spawns one goroutine per registered check; each goroutine executes
`resultList = append(resultList, fn(clientSet))` on the shared slice
`resultList` with no synchronization, and `wg.Wait()` joins. The append
to the shared slice is a read-modify-write: the goroutine reads the
current `resultList`, builds the extended list, and writes it back. We
model one run as an interleaving of those two steps per task: task `i`
first reads the shared list (saving what it saw), then writes back its
saved snapshot extended with its own Result. The schedule is the list of
task indices in the order the scheduler lets them take a step. -/

/-- Progress of one goroutine: not yet read the shared list, read it
(saving the value seen), or finished its write. -/
inductive TaskPhase where
  | idle : TaskPhase
  | readDone : List Result → TaskPhase
  | finished : TaskPhase
deriving DecidableEq, Repr

/-- The shared `resultList` plus each task's phase. -/
structure RunnerState where
  shared : List Result
  tasks : List TaskPhase
deriving DecidableEq, Repr

/-- One scheduler step granted to task `i`: an idle task reads the
shared list; a task that has read writes back its saved snapshot
extended with its own Result (`rs[i]`); a finished task does nothing. -/
def runnerStep (rs : List Result) (st : RunnerState) (i : Nat) : RunnerState :=
  match st.tasks[i]?, rs[i]? with
  | some .idle, some _ =>
      { st with tasks := st.tasks.set i (.readDone st.shared) }
  | some (.readDone saved), some r =>
      ⟨saved ++ [r], st.tasks.set i .finished⟩
  | _, _ => st

/-- Initial runner state: empty `resultList`, every task idle. -/
def runnerInit (rs : List Result) : RunnerState :=
  ⟨[], rs.map fun _ => .idle⟩

/-- Execute the schedule from the initial state. -/
def runnerExec (rs : List Result) (sched : List Nat) : RunnerState :=
  sched.foldl (runnerStep rs) (runnerInit rs)

/-- `wg.Wait()` has returned: every task is finished. -/
def RunnerState.allDone (st : RunnerState) : Bool :=
  st.tasks.all fun t => match t with | .finished => true | _ => false

/-! ## Concrete provider snapshots used as test inputs -/

/-- A provider on whose every call succeeds with an empty collection. -/
def emptyProvider : Provider :=
  ⟨.ok [], fun _ _ => .ok [], fun _ => .ok [], .ok [], .ok [], fun _ => .ok [], fun _ => .ok []⟩

/-- A provider on whose every call fails with the message `"boom"`. -/
def failingProvider : Provider :=
  ⟨.error "boom", fun _ _ => .error "boom", fun _ => .error "boom", .error "boom",
   .error "boom", fun _ => .error "boom", fun _ => .error "boom"⟩

/-- The spec's overcommit example: one node with allocatable CPU 4
(4000 milli-units) and two scheduled pods, each with one container
declaring a CPU limit of 3 (3000 milli-units). -/
def overCommitExampleProvider : Provider :=
  { emptyProvider with
    listNodes := .ok [⟨"node-1", 4000, 8000000000, []⟩],
    listPods := fun _ _ =>
      .ok [⟨"pod-a", "default", [⟨"work", ⟨3000, 0⟩⟩], []⟩,
           ⟨"pod-b", "default", [⟨"work", ⟨3000, 0⟩⟩], []⟩] }

/-- A provider whose mutating webhook configurations contain one entry
with an absent (nil) failure policy. -/
def badWebhookProvider : Provider :=
  { emptyProvider with
    listMutatingWebhookConfigurations := .ok [⟨[⟨"wh-nil-policy", none⟩]⟩] }

/-! ## Per-element contributions of the info-accumulating loops

Each flagging loop appends a fixed string per flagged element; these
definitions name the per-element contribution, and lemmas below show the
loops equal the concatenation of the contributions. -/

/-- The line the nodes check appends for one matching condition. -/
def nodeReadyLine (n : Node) : String :=
  "Node: " ++ n.name ++ " is NotReady"

/-- Contribution of one condition of node `n` to the nodes check's
info. -/
def nodeCondChunk (n : Node) (c : NodeCondition) : String :=
  if c.type = "Ready" then (if c.status = "False" then nodeReadyLine n else "") else ""

/-- Contribution of one node to the nodes check's info. -/
def nodeReadyChunk (n : Node) : String :=
  strFold (nodeCondChunk n) n.conditions

/-- Contribution of one container status of pod `p` to the OOM check's
info. -/
def podStatusChunk (p : Pod) (st : ContainerStatus) : String :=
  match st.lastTerminationTerminatedReason with
  | some r => if r = "OOMKilled" then oomLine p else ""
  | none => ""

/-- Contribution of one pod to the OOM check's info. -/
def podOomChunk (p : Pod) : String :=
  strFold (podStatusChunk p) p.statuses

/-- One container status records an `"OOMKilled"` last termination. -/
def statusOom (st : ContainerStatus) : Bool :=
  st.lastTerminationTerminatedReason == some "OOMKilled"

/-- Some container status of the pod records an `"OOMKilled"` last
termination. -/
def podOom (p : Pod) : Bool :=
  p.statuses.any statusOom

/-- Contribution of one container status of pod `p` to the infra
check's info. -/
def infraStatusChunk (p : Pod) (c : ContainerStatus) : String :=
  (if 0 < c.restartCount then
      "Container restarts Detected! Pod: " ++ p.name ++ "  container: " ++ c.name ++ "\n"
    else "") ++
  (if !c.ready then
      "Container 'Not Ready' Detected! Pod: " ++ p.name ++ "  in container: " ++ c.name ++ "\n"
    else "")

/-- Contribution of one pod to the infra check's info. -/
def infraChunk (p : Pod) : String :=
  strFold (infraStatusChunk p) p.statuses

/-- Contribution of one cron job to the cron-job check's info. -/
def cronChunk (c : CronJob) : String :=
  (if cronJobThreshold < c.active.length then cronTooManyLine c else "") ++
  (if c.concurrencyPolicy = "Allow" then cronAllowLine c else "")

/-- The cron job's active-run count exceeds the threshold. -/
def cronOver (c : CronJob) : Bool :=
  decide (cronJobThreshold < c.active.length)

/-! ## Further concrete snapshots for the spec's examples -/

/-- A node whose `"Ready"` condition has status `"False"`. -/
def readyFalseNode : Node := ⟨"node-1", 0, 0, [⟨"Ready", "False"⟩]⟩

/-- A node whose `"Ready"` condition has status `"True"`. -/
def readyTrueNode : Node := ⟨"node-2", 0, 0, [⟨"Ready", "True"⟩]⟩

/-- The spec's readiness example: one not-ready node and one ready
node. -/
def readinessExampleProvider : Provider :=
  { emptyProvider with listNodes := .ok [readyFalseNode, readyTrueNode] }

/-- An endpoints object with one subset. -/
def backedEndpoints : Endpoints := ⟨"svc-backed", [()]⟩

/-- An endpoints object with zero subsets. -/
def emptyEndpoints : Endpoints := ⟨"svc-empty", []⟩

/-- The spec's endpoints example: one backed and one empty endpoints
object. -/
def endpointsExampleProvider : Provider :=
  { emptyProvider with listEndpoints := fun _ => .ok [backedEndpoints, emptyEndpoints] }

/-- A pod whose container status records an `"OOMKilled"` last
termination. -/
def oomPod : Pod := ⟨"pod1", "ns1", [], [⟨"c1", 0, true, some "OOMKilled"⟩]⟩

/-- A pod whose recorded termination reason differs from `"OOMKilled"`
only in case. -/
def lowercaseOomPod : Pod := ⟨"pod2", "ns2", [], [⟨"c1", 0, true, some "oomkilled"⟩]⟩

/-- Snapshot with one OOM-killed pod and one case-variant pod. -/
def oomExampleProvider : Provider :=
  { emptyProvider with listPods := fun _ _ => .ok [oomPod, lowercaseOomPod] }

/-- A cron job with 50 active runs and the overlap-permitting
concurrency policy. -/
def advisoryCronJob : CronJob := ⟨"ns1", "job1", List.replicate 50 (), "Allow"⟩

/-- A cron job with 101 active runs. -/
def overloadedCronJob : CronJob := ⟨"ns1", "job2", List.replicate 101 (), "Forbid"⟩

/-- Snapshot with the 50-active-runs advisory cron job. -/
def cronAdvisoryProvider : Provider :=
  { emptyProvider with listCronJobs := fun _ => .ok [advisoryCronJob] }

/-- Snapshot with the 101-active-runs cron job. -/
def cronOverloadProvider : Provider :=
  { emptyProvider with listCronJobs := fun _ => .ok [overloadedCronJob] }

/-! ## String and fold lemmas -/

theorem strAppend_eq_empty {a b : String} : a ++ b = "" ↔ a = "" ∧ b = "" := by
  constructor
  · intro h
    have hd : (a ++ b).data = ([] : List Char) := by rw [h]
    rw [String.data_append] at hd
    have h2 := List.append_eq_nil.mp hd
    exact ⟨String.ext h2.1, String.ext h2.2⟩
  · rintro ⟨rfl, rfl⟩; rfl

theorem strAppend_ne_empty_left {a : String} (b : String) (h : a ≠ "") : a ++ b ≠ "" :=
  fun hc => h (strAppend_eq_empty.mp hc).1

theorem strAppend_ne_empty_right (a : String) {b : String} (h : b ≠ "") : a ++ b ≠ "" :=
  fun hc => h (strAppend_eq_empty.mp hc).2

theorem strFold_eq_empty_iff {α : Type} (f : α → String) (l : List α) :
    strFold f l = "" ↔ ∀ x ∈ l, f x = "" := by
  induction l with
  | nil => simp [strFold]
  | cons x xs ih => simp [strFold, strAppend_eq_empty, ih]

theorem foldl_append_strFold {α : Type} (f : α → String) (l : List α) (init : String) :
    l.foldl (fun acc x => acc ++ f x) init = init ++ strFold f l := by
  induction l generalizing init with
  | nil => simp [strFold]
  | cons x xs ih => simp [strFold, ih, String.append_assoc]

theorem containsSub_refl (s : String) : ContainsSubStr s s :=
  ⟨"", "", by simp⟩

theorem ContainsSubStr.append_left {sub s : String} (pre : String) :
    ContainsSubStr sub s → ContainsSubStr sub (pre ++ s)
  | ⟨a, b, h⟩ => ⟨pre ++ a, b, by rw [h]; simp [String.append_assoc]⟩

theorem ContainsSubStr.append_right {sub s : String} (post : String) :
    ContainsSubStr sub s → ContainsSubStr sub (s ++ post)
  | ⟨a, b, h⟩ => ⟨a, b ++ post, by rw [h]; simp [String.append_assoc]⟩

theorem ContainsSubStr.trans {a b c : String} :
    ContainsSubStr a b → ContainsSubStr b c → ContainsSubStr a c
  | ⟨x, y, hb⟩, ⟨u, v, hc⟩ =>
    ⟨u ++ x, y ++ v, by rw [hc, hb]; simp [String.append_assoc]⟩

theorem ContainsSubStr.ne_empty {sub s : String} (h : ContainsSubStr sub s)
    (hsub : sub ≠ "") : s ≠ "" := by
  obtain ⟨a, b, rfl⟩ := h
  exact strAppend_ne_empty_left b (strAppend_ne_empty_right a hsub)

theorem containsSub_strFold {α : Type} (f : α → String) {l : List α} {x : α} (hx : x ∈ l) :
    ContainsSubStr (f x) (strFold f l) := by
  induction l with
  | nil => cases hx
  | cons y ys ih =>
    rcases List.mem_cons.mp hx with rfl | h
    · exact (containsSub_refl (f x)).append_right (strFold f ys)
    · exact (ih h).append_left (f y)

/-! ## Characterisation of the node-readiness check -/

theorem nodesInfo_eq (ns : List Node) :
    ns.foldl (fun acc n =>
      n.conditions.foldl (fun a c =>
        if c.type = "Ready" then
          if c.status = "False" then a ++ ("Node: " ++ n.name ++ " is NotReady") else a
        else a) acc) "" = strFold nodeReadyChunk ns := by
  have inner : ∀ (n : Node) (acc : String),
      n.conditions.foldl (fun a c =>
        if c.type = "Ready" then
          if c.status = "False" then a ++ ("Node: " ++ n.name ++ " is NotReady") else a
        else a) acc = acc ++ nodeReadyChunk n := by
    intro n acc
    rw [nodeReadyChunk, ← foldl_append_strFold]
    refine List.foldl_ext _ _ acc fun a c _ => ?_
    by_cases h1 : c.type = "Ready" <;> by_cases h2 : c.status = "False" <;>
      simp [nodeCondChunk, nodeReadyLine, h1, h2]
  calc ns.foldl (fun acc n =>
        n.conditions.foldl (fun a c =>
          if c.type = "Ready" then
            if c.status = "False" then a ++ ("Node: " ++ n.name ++ " is NotReady") else a
          else a) acc) ""
      = ns.foldl (fun acc n => acc ++ nodeReadyChunk n) "" :=
        List.foldl_ext _ _ "" fun acc n _ => inner n acc
    _ = strFold nodeReadyChunk ns := by rw [foldl_append_strFold]; simp

theorem nodesOf_ok (ns : List Node) :
    nodesOf (.ok ns) =
      if strFold nodeReadyChunk ns ≠ "" then
        ⟨"nodes", false, strFold nodeReadyChunk ns, none⟩
      else ⟨"nodes", true, "", none⟩ := by
  simp only [nodesOf]
  rw [nodesInfo_eq]

theorem nodeCondChunk_ne_iff (n : Node) (c : NodeCondition) :
    nodeCondChunk n c ≠ "" ↔ c.type = "Ready" ∧ c.status = "False" := by
  by_cases h1 : c.type = "Ready" <;> by_cases h2 : c.status = "False" <;>
    simp [nodeCondChunk, h1, h2]
  exact strAppend_ne_empty_right _ (by decide : (" is NotReady" : String) ≠ "")

theorem nodeReadyChunk_ne_iff (n : Node) :
    nodeReadyChunk n ≠ "" ↔ ∃ c ∈ n.conditions, c.type = "Ready" ∧ c.status = "False" := by
  rw [nodeReadyChunk, Ne, strFold_eq_empty_iff]
  push_neg
  exact exists_congr fun c => and_congr_right fun _ => nodeCondChunk_ne_iff n c

theorem nodesStrFold_ne_iff (ns : List Node) :
    strFold nodeReadyChunk ns ≠ "" ↔
      ∃ n ∈ ns, ∃ c ∈ n.conditions, c.type = "Ready" ∧ c.status = "False" := by
  rw [Ne, strFold_eq_empty_iff]
  push_neg
  exact exists_congr fun n => and_congr_right fun _ => nodeReadyChunk_ne_iff n

theorem nodeReadyChunk_contains_name (n : Node) (h : nodeReadyChunk n ≠ "") :
    ContainsSubStr n.name (nodeReadyChunk n) := by
  obtain ⟨c, hc, h1, h2⟩ := (nodeReadyChunk_ne_iff n).mp h
  have h3 : ContainsSubStr (nodeCondChunk n c) (nodeReadyChunk n) :=
    containsSub_strFold (nodeCondChunk n) hc
  have h4 : nodeCondChunk n c = nodeReadyLine n := by simp [nodeCondChunk, h1, h2]
  have h5 : ContainsSubStr n.name (nodeReadyLine n) := ⟨"Node: ", " is NotReady", rfl⟩
  rw [h4] at h3
  exact h5.trans h3

/-- C7: on a successful node listing, a node contributes a flagging line
exactly when one of its conditions has type `"Ready"` (exact match) with
status `"False"`; the check fails exactly when some node does, and every
flagged node is named in the details text. -/
theorem C7_node_readiness_flags (cs : Provider) (ns : List Node)
    (h : cs.listNodes = .ok ns) :
    (∀ n ∈ ns, (nodeReadyChunk n ≠ "" ↔
      ∃ c ∈ n.conditions, c.type = "Ready" ∧ c.status = "False")) ∧
    ((nodes cs).pass = false ↔
      ∃ n ∈ ns, ∃ c ∈ n.conditions, c.type = "Ready" ∧ c.status = "False") ∧
    (∀ n ∈ ns, nodeReadyChunk n ≠ "" → ContainsSubStr n.name (nodes cs).details) := by
  have hN : nodes cs = nodesOf (.ok ns) := by rw [Flare.nodes, h]
  rw [hN, nodesOf_ok]
  refine ⟨fun n _ => nodeReadyChunk_ne_iff n, ?_, ?_⟩
  · rw [← nodesStrFold_ne_iff]
    by_cases hinfo : strFold nodeReadyChunk ns = "" <;> simp [hinfo]
  · intro n hn hchunk
    have hsub : ContainsSubStr (nodeReadyChunk n) (strFold nodeReadyChunk ns) :=
      containsSub_strFold _ hn
    have hinfo : strFold nodeReadyChunk ns ≠ "" := hsub.ne_empty hchunk
    simp only [if_pos hinfo]
    exact (nodeReadyChunk_contains_name n hchunk).trans hsub

/-- Witness for C7 at the spec's two-node example: the check fails, the
not-ready node is named in the details, and the ready node contributes
nothing. -/
theorem C7_node_readiness_flags_witness :
    (nodes readinessExampleProvider).pass = false ∧
    ContainsSubStr "node-1" (nodes readinessExampleProvider).details ∧
    nodeReadyChunk readyTrueNode = "" := by
  have H := C7_node_readiness_flags readinessExampleProvider
    [readyFalseNode, readyTrueNode] rfl
  refine ⟨?_, ?_, by decide⟩
  · exact H.2.1.mpr ⟨readyFalseNode, by simp, ⟨"Ready", "False"⟩, by simp [readyFalseNode]⟩
  · exact H.2.2 readyFalseNode (by simp) (by decide)

/-! ## Characterisation of the endpoints check -/

theorem endpointsOf_ok (items : List Endpoints) :
    endpointsOf (.ok items) =
      if strFold endpointChunk items = "" then ⟨"endpoints", true, "", none⟩
      else ⟨"endpoints", false, strFold endpointChunk items, none⟩ := by
  simp only [endpointsOf]
  rw [foldl_append_strFold]
  simp

theorem endpointChunk_ne_iff (e : Endpoints) :
    endpointChunk e ≠ "" ↔ e.subsets = [] := by
  cases hs : e.subsets with
  | nil =>
    simp only [endpointChunk, hs, List.length_nil, iff_true]
    exact fun hc =>
      strAppend_ne_empty_right _ (by decide : (" has no active endpoints!\n" : String) ≠ "")
        (by simpa using hc)
  | cons a l => simp [endpointChunk, hs]

theorem endpointsStrFold_ne_iff (items : List Endpoints) :
    strFold endpointChunk items ≠ "" ↔ ∃ x ∈ items, x.subsets = [] := by
  rw [Ne, strFold_eq_empty_iff]
  push_neg
  exact exists_congr fun x => and_congr_right fun _ => endpointChunk_ne_iff x

/-- C8: on a successful endpoints listing, an endpoints object
contributes a flagging line exactly when it has zero subsets; the check
fails exactly when some object does, and every flagged object is named
in the details text. -/
theorem C8_endpoints_flags (cs : Provider) (items : List Endpoints)
    (h : cs.listEndpoints "" = .ok items) :
    (∀ x ∈ items, (endpointChunk x ≠ "" ↔ x.subsets = [])) ∧
    ((endpoints cs).pass = false ↔ ∃ x ∈ items, x.subsets = []) ∧
    (∀ x ∈ items, x.subsets = [] → ContainsSubStr x.name (endpoints cs).details) := by
  have hE : endpoints cs = endpointsOf (.ok items) := by rw [Flare.endpoints, h]
  rw [hE, endpointsOf_ok]
  refine ⟨fun x _ => endpointChunk_ne_iff x, ?_, ?_⟩
  · rw [← endpointsStrFold_ne_iff]
    by_cases hinfo : strFold endpointChunk items = "" <;> simp [hinfo]
  · intro x hx hempty
    have hchunk : endpointChunk x ≠ "" := (endpointChunk_ne_iff x).mpr hempty
    have hsub : ContainsSubStr (endpointChunk x) (strFold endpointChunk items) :=
      containsSub_strFold _ hx
    have hinfo : strFold endpointChunk items ≠ "" := hsub.ne_empty hchunk
    simp only [if_neg hinfo]
    have hname : ContainsSubStr x.name (endpointChunk x) := by
      rw [show endpointChunk x = "Service " ++ x.name ++ " has no active endpoints!\n" by
        simp [endpointChunk, hempty]]
      exact ⟨"Service ", " has no active endpoints!\n", rfl⟩
    exact (hname.trans hsub).trans (by simpa using containsSub_refl _)

/-- Witness for C8 at the spec's two-object example: the check fails,
the subset-less object is named in the details, and the backed object
contributes nothing. -/
theorem C8_endpoints_flags_witness :
    (endpoints endpointsExampleProvider).pass = false ∧
    ContainsSubStr "svc-empty" (endpoints endpointsExampleProvider).details ∧
    endpointChunk backedEndpoints = "" := by
  have H := C8_endpoints_flags endpointsExampleProvider
    [backedEndpoints, emptyEndpoints] rfl
  refine ⟨?_, ?_, by decide⟩
  · exact H.2.1.mpr ⟨emptyEndpoints, by simp, rfl⟩
  · exact H.2.2 emptyEndpoints (by simp) rfl

/-! ## Characterisation of the OOM check -/

theorem oomStatusFold_eq (p : Pod) (l : List ContainerStatus) (b : Bool) (s : String) :
    l.foldl (fun a st =>
      match st.lastTerminationTerminatedReason with
      | some r => if r = "OOMKilled" then (false, a.2 ++ oomLine p) else a
      | none => a) (b, s) = (b && !l.any statusOom, s ++ strFold (podStatusChunk p) l) := by
  induction l generalizing b s with
  | nil => simp [strFold]
  | cons st rest ih =>
    cases hst : st.lastTerminationTerminatedReason with
    | none => simp [hst, ih, statusOom, podStatusChunk, strFold, String.append_assoc]
    | some r =>
      by_cases hr : r = "OOMKilled"
      · subst hr
        simp [hst, ih, statusOom, podStatusChunk, strFold, String.append_assoc]
      · have hb : (r == "OOMKilled") = false := beq_eq_false_iff_ne.mpr hr
        simp [hst, hr, hb, ih, statusOom, podStatusChunk, strFold, String.append_assoc]

theorem oomPodFold_eq (p : Pod) (b : Bool) (s : String) :
    oomPodFold p (b, s) = (b && !podOom p, s ++ podOomChunk p) := by
  rw [oomPodFold, podOom, podOomChunk]
  exact oomStatusFold_eq p p.statuses b s

theorem oomPodsFold_eq (pods : List Pod) (b : Bool) (s : String) :
    pods.foldl (fun acc p => oomPodFold p acc) (b, s) =
      (b && !pods.any podOom, s ++ strFold podOomChunk pods) := by
  induction pods generalizing b s with
  | nil => simp [strFold]
  | cons p rest ih =>
    rw [List.foldl_cons, oomPodFold_eq, ih]
    simp [strFold, String.append_assoc, Bool.and_assoc]

theorem oomkilledOf_ok (pods : List Pod) :
    oomkilledOf (.ok pods) =
      ⟨"oomkilled", !pods.any podOom, strFold podOomChunk pods, none⟩ := by
  simp only [oomkilledOf]
  rw [oomPodsFold_eq]
  simp

theorem podStatusChunk_ne_iff (p : Pod) (st : ContainerStatus) :
    podStatusChunk p st ≠ "" ↔ st.lastTerminationTerminatedReason = some "OOMKilled" := by
  cases hst : st.lastTerminationTerminatedReason with
  | none => simp [podStatusChunk, hst]
  | some r =>
    by_cases hr : r = "OOMKilled"
    · subst hr
      simp only [podStatusChunk, hst, if_pos rfl, iff_true]
      exact strAppend_ne_empty_right _
        (by decide : (" has previous OOMKilled state\n" : String) ≠ "")
    · simp [podStatusChunk, hst, hr]

theorem podOomChunk_ne_iff (p : Pod) :
    podOomChunk p ≠ "" ↔
      ∃ st ∈ p.statuses, st.lastTerminationTerminatedReason = some "OOMKilled" := by
  rw [podOomChunk, Ne, strFold_eq_empty_iff]
  push_neg
  exact exists_congr fun st => and_congr_right fun _ => podStatusChunk_ne_iff p st

theorem podOom_true_iff (p : Pod) :
    podOom p = true ↔
      ∃ st ∈ p.statuses, st.lastTerminationTerminatedReason = some "OOMKilled" := by
  simp [podOom, List.any_eq_true, statusOom]

theorem oomLine_contains_nsname (p : Pod) :
    ContainsSubStr (p.nspace ++ "/" ++ p.name) (oomLine p) :=
  ⟨"Pod ", " has previous OOMKilled state\n", by simp [oomLine, String.append_assoc]⟩

/-- C9: on a successful all-namespaces pod listing, a pod contributes a
flagging line exactly when some container status records a last
termination with reason exactly `"OOMKilled"`; the check fails exactly
when some pod does, and every flagged pod's `namespace/name` appears in
the details text. -/
theorem C9_oomkilled_flags (cs : Provider) (pods : List Pod)
    (h : cs.listPods "" "" = .ok pods) :
    (∀ p ∈ pods, (podOomChunk p ≠ "" ↔
      ∃ st ∈ p.statuses, st.lastTerminationTerminatedReason = some "OOMKilled")) ∧
    ((oomkilled cs).pass = false ↔
      ∃ p ∈ pods, ∃ st ∈ p.statuses,
        st.lastTerminationTerminatedReason = some "OOMKilled") ∧
    (∀ p ∈ pods, (∃ st ∈ p.statuses,
        st.lastTerminationTerminatedReason = some "OOMKilled") →
      ContainsSubStr (p.nspace ++ "/" ++ p.name) (oomkilled cs).details) := by
  have hO : oomkilled cs = oomkilledOf (.ok pods) := by rw [Flare.oomkilled, h]
  rw [hO, oomkilledOf_ok]
  refine ⟨fun p _ => podOomChunk_ne_iff p, ?_, ?_⟩
  · simp only [Bool.not_eq_false', List.any_eq_true]
    exact exists_congr fun p => and_congr_right fun _ => podOom_true_iff p
  · intro p hp hst
    obtain ⟨st, hmem, hr⟩ := hst
    have h1 : ContainsSubStr (podStatusChunk p st) (podOomChunk p) :=
      containsSub_strFold (podStatusChunk p) hmem
    have h2 : podStatusChunk p st = oomLine p := by simp [podStatusChunk, hr]
    have h3 : ContainsSubStr (podOomChunk p) (strFold podOomChunk pods) :=
      containsSub_strFold podOomChunk hp
    rw [h2] at h1
    exact ((oomLine_contains_nsname p).trans h1).trans h3

/-- Witness for C9: the pod with an `"OOMKilled"` termination is flagged
and named, while the case-variant `"oomkilled"` pod contributes
nothing. -/
theorem C9_oomkilled_flags_witness :
    (oomkilled oomExampleProvider).pass = false ∧
    ContainsSubStr ("ns1" ++ "/" ++ "pod1") (oomkilled oomExampleProvider).details ∧
    podOomChunk lowercaseOomPod = "" := by
  have H := C9_oomkilled_flags oomExampleProvider [oomPod, lowercaseOomPod] rfl
  refine ⟨?_, ?_, by decide⟩
  · exact H.2.1.mpr ⟨oomPod, by simp, ⟨"c1", 0, true, some "OOMKilled"⟩, by simp [oomPod], rfl⟩
  · exact H.2.2 oomPod (by simp) ⟨⟨"c1", 0, true, some "OOMKilled"⟩, by simp [oomPod], rfl⟩

/-! ## Characterisation of the cron-job check -/

theorem cronFold_eq (jobs : List CronJob) (b : Bool) (s : String) :
    jobs.foldl cronStep (b, s) = (b && !jobs.any cronOver, s ++ strFold cronChunk jobs) := by
  induction jobs generalizing b s with
  | nil => simp [strFold]
  | cons c rest ih =>
    rw [List.foldl_cons]
    by_cases h1 : cronJobThreshold < c.active.length <;>
      by_cases h2 : c.concurrencyPolicy = "Allow" <;>
        simp [cronStep, cronChunk, cronOver, h1, h2, ih, strFold, String.append_assoc]

theorem cronjobOf_ok (jobs : List CronJob) :
    cronjobOf (.ok jobs) = ⟨"cronjobs", !jobs.any cronOver, strFold cronChunk jobs, none⟩ := by
  simp only [cronjobOf]
  rw [cronFold_eq]
  simp

theorem cronChunk_ne_of_allow {c : CronJob} (h : c.concurrencyPolicy = "Allow") :
    cronChunk c ≠ "" := by
  rw [cronChunk, if_pos h]
  exact strAppend_ne_empty_right _ (strAppend_ne_empty_right _
    (by decide : (", is set to AllowConcurrent\n" : String) ≠ ""))

/-- C5: on a successful cron-job listing, the check fails exactly when
some job's active-run count exceeds the fixed threshold 100, and any job
whose concurrency policy is `"Allow"` makes the details non-empty
(without affecting the pass verdict, which the first part characterises
independently of the policy). -/
theorem C5_cronjob_threshold_and_advisory (cs : Provider) (jobs : List CronJob)
    (h : cs.listCronJobs "" = .ok jobs) :
    ((cronjob cs).pass = false ↔ ∃ j ∈ jobs, cronJobThreshold < j.active.length) ∧
    ((∃ j ∈ jobs, j.concurrencyPolicy = "Allow") → (cronjob cs).details ≠ "") := by
  have hC : cronjob cs = cronjobOf (.ok jobs) := by rw [Flare.cronjob, h]
  rw [hC, cronjobOf_ok]
  constructor
  · simp [cronOver, List.any_eq_true]
  · rintro ⟨j, hj, hallow⟩
    exact (containsSub_strFold cronChunk hj).ne_empty (cronChunk_ne_of_allow hallow)

/-- Witness for C5 at the spec's two examples: 50 active runs with an
overlap-permitting policy pass with non-empty advisory details; 101
active runs fail. -/
theorem C5_cronjob_threshold_and_advisory_witness :
    (cronjob cronAdvisoryProvider).pass = true ∧
    (cronjob cronAdvisoryProvider).details ≠ "" ∧
    (cronjob cronOverloadProvider).pass = false := by
  have H1 := C5_cronjob_threshold_and_advisory cronAdvisoryProvider [advisoryCronJob] rfl
  have H2 := C5_cronjob_threshold_and_advisory cronOverloadProvider [overloadedCronJob] rfl
  refine ⟨?_, ?_, ?_⟩
  · cases hp : (cronjob cronAdvisoryProvider).pass with
    | false => exact absurd (H1.1.mp hp) (by decide)
    | true => rfl
  · exact H1.2 ⟨advisoryCronJob, by simp, rfl⟩
  · exact H2.1.mpr ⟨overloadedCronJob, by simp, by decide⟩

/-! ## Characterisation of the events and infra checks -/

theorem eventsOf_ok (items : List Event) :
    eventsOf (.ok items) =
      if strFold eventChunk items = "" then ⟨"events", true, "", none⟩
      else ⟨"events", false, strFold eventChunk items, none⟩ := by
  simp only [eventsOf]
  rw [foldl_append_strFold]
  simp

theorem infraInfo_eq (pods : List Pod) :
    pods.foldl (fun acc p =>
      p.statuses.foldl (fun a c =>
        let a := if 0 < c.restartCount then
            a ++ ("Container restarts Detected! Pod: " ++ p.name
              ++ "  container: " ++ c.name ++ "\n")
          else a
        if !c.ready then
          a ++ ("Container 'Not Ready' Detected! Pod: " ++ p.name
            ++ "  in container: " ++ c.name ++ "\n")
        else a) acc) "" = strFold infraChunk pods := by
  have inner : ∀ (p : Pod) (acc : String),
      p.statuses.foldl (fun a c =>
        let a := if 0 < c.restartCount then
            a ++ ("Container restarts Detected! Pod: " ++ p.name
              ++ "  container: " ++ c.name ++ "\n")
          else a
        if !c.ready then
          a ++ ("Container 'Not Ready' Detected! Pod: " ++ p.name
            ++ "  in container: " ++ c.name ++ "\n")
        else a) acc = acc ++ infraChunk p := by
    intro p acc
    rw [infraChunk, ← foldl_append_strFold]
    refine List.foldl_ext _ _ acc fun a c _ => ?_
    by_cases h1 : 0 < c.restartCount <;> by_cases h2 : c.ready <;>
      simp [infraStatusChunk, h1, h2, String.append_assoc]
  calc pods.foldl (fun acc p =>
        p.statuses.foldl (fun a c =>
          let a := if 0 < c.restartCount then
              a ++ ("Container restarts Detected! Pod: " ++ p.name
                ++ "  container: " ++ c.name ++ "\n")
            else a
          if !c.ready then
            a ++ ("Container 'Not Ready' Detected! Pod: " ++ p.name
              ++ "  in container: " ++ c.name ++ "\n")
          else a) acc) ""
      = pods.foldl (fun acc p => acc ++ infraChunk p) "" :=
        List.foldl_ext _ _ "" fun acc p _ => inner p acc
    _ = strFold infraChunk pods := by rw [foldl_append_strFold]; simp

theorem infraOf_ok (pods : List Pod) :
    infraOf (.ok pods) =
      if strFold infraChunk pods = "" then ⟨"infra", true, "", none⟩
      else ⟨"infra", false, strFold infraChunk pods, none⟩ := by
  simp only [infraOf]
  rw [infraInfo_eq]

/-! ## Lemmas about the overcommit check -/

theorem overCommitLoop_pass_false_err (cs : Provider) (l : List Node) (info : String)
    (h : (overCommitLoop cs l info).pass = false) :
    (overCommitLoop cs l info).err ≠ none := by
  induction l generalizing info with
  | nil => by_cases hi : info = "" <;> simp [overCommitLoop, hi] at h
  | cons n rest ih =>
    cases hp : cs.listPods "" ("spec.nodeName=" ++ n.name) with
    | error e => simp [overCommitLoop, hp]
    | ok pods =>
      simp only [overCommitLoop, hp] at h ⊢
      exact ih _ h

theorem overCommitLoop_pods_err (cs : Provider) (e : String) (l : List Node)
    (info : String) (n : Node) (hn : n ∈ l)
    (he : cs.listPods "" ("spec.nodeName=" ++ n.name) = .error e) :
    (overCommitLoop cs l info).pass = false ∧ (overCommitLoop cs l info).err ≠ none := by
  induction l generalizing info with
  | nil => cases hn
  | cons m rest ih =>
    cases hp : cs.listPods "" ("spec.nodeName=" ++ m.name) with
    | error e2 => simp [overCommitLoop, hp]
    | ok pods =>
      rcases List.mem_cons.mp hn with rfl | hmem
      · rw [hp] at he
        exact absurd he (by simp)
      · simp only [overCommitLoop, hp]
        exact ih _ hmem

theorem overCommit_pass_false_err (cs : Provider)
    (h : (overCommit cs).pass = false) : (overCommit cs).err ≠ none := by
  cases hn : cs.listNodes with
  | error e => simp [overCommit, hn]
  | ok ns =>
    simp only [overCommit, hn] at h ⊢
    exact overCommitLoop_pass_false_err cs ns "" h

theorem overCommitLoop_congr (p q : Provider)
    (h : ∀ sel, p.listPods "" sel = q.listPods "" sel) (l : List Node) (info : String) :
    overCommitLoop p l info = overCommitLoop q l info := by
  induction l generalizing info with
  | nil => rfl
  | cons n rest ih =>
    simp only [overCommitLoop, h]
    cases q.listPods "" ("spec.nodeName=" ++ n.name) with
    | error e => rfl
    | ok pods => exact ih _

/-- C1: evaluation of the overcommit check at the spec's example (one
node with allocatable CPU 4, two scheduled pods each with a container
declaring CPU limit 3): the node's loop iteration flags the node — its
info contribution is non-empty and names the node — yet the check's
returned `Result` has `pass = true`, not `pass = false`. -/
theorem C1_overcommit_flagged_node_passes :
    (overCommit overCommitExampleProvider).pass = true ∧
    (overCommit overCommitExampleProvider).details ≠ "" ∧
    ContainsSubStr "node-1" (overCommit overCommitExampleProvider).details := by
  refine ⟨by decide, by decide, ?_⟩
  exact ⟨"node ",
    " is overcommited on CPU! Requested: 6 Allocateable: 4 \n", by decide⟩

/-- C2: the shared-slice append of the runner is a read-modify-write
with no synchronization; under the interleaving read₀, read₁, write₀,
write₁ of two tasks, the join completes with only the second task's
Result collected — one registered check's Result is lost — while the
non-overlapping schedule collects both. -/
theorem C2_runner_interleaving_loses_result :
    (runnerExec [⟨"checkA", true, "", none⟩, ⟨"checkB", true, "", none⟩]
      [0, 1, 0, 1]).allDone = true ∧
    (runnerExec [⟨"checkA", true, "", none⟩, ⟨"checkB", true, "", none⟩]
      [0, 1, 0, 1]).shared = [⟨"checkB", true, "", none⟩] ∧
    (runnerExec [⟨"checkA", true, "", none⟩, ⟨"checkB", true, "", none⟩]
      [0, 1, 0, 1]).shared.length ≠ 2 ∧
    (runnerExec [⟨"checkA", true, "", none⟩, ⟨"checkB", true, "", none⟩]
      [0, 0, 1, 1]).shared =
      [⟨"checkA", true, "", none⟩, ⟨"checkB", true, "", none⟩] := by
  decide

/-! ## Totality of the webhooks scan under non-nil failure policies -/

theorem scanWebhookList_total (kind : String) (l : List Webhook) (info : String)
    (h : ∀ w ∈ l, w.failurePolicy.isSome) :
    ∃ s, scanWebhookList kind l info = .ok s := by
  induction l generalizing info with
  | nil => exact ⟨info, rfl⟩
  | cons w ws ih =>
    cases hw : w.failurePolicy with
    | none =>
      have hsome := h w (List.mem_cons_self w ws)
      rw [hw] at hsome
      simp at hsome
    | some fp =>
      simp only [scanWebhookList, hw]
      exact ih _ fun v hv => h v (List.mem_cons_of_mem w hv)

theorem scanWebhookConfigs_total (kind : String) (l : List WebhookConfiguration)
    (info : String) (h : ∀ c ∈ l, ∀ w ∈ c.webhooks, w.failurePolicy.isSome) :
    ∃ s, scanWebhookConfigs kind l info = .ok s := by
  induction l generalizing info with
  | nil => exact ⟨info, rfl⟩
  | cons c rest ih =>
    obtain ⟨s1, hs1⟩ :=
      scanWebhookList_total kind c.webhooks info (h c (List.mem_cons_self c rest))
    simp only [scanWebhookConfigs, hs1]
    exact ih _ fun d hd => h d (List.mem_cons_of_mem c hd)

/-- C10: when every entry of every listed mutating and validating
configuration has a non-nil failure policy, the webhooks check evaluates
totally to a `Result`; and the fault branch is reachable — a listing
containing an entry with an absent failure policy makes the evaluation
fault. -/
theorem C10_webhooks_totality :
    (∀ (cs : Provider) (ms vs : List WebhookConfiguration),
      cs.listMutatingWebhookConfigurations = .ok ms →
      cs.listValidatingWebhookConfigurations = .ok vs →
      (∀ c ∈ ms, ∀ w ∈ c.webhooks, w.failurePolicy.isSome) →
      (∀ c ∈ vs, ∀ w ∈ c.webhooks, w.failurePolicy.isSome) →
      ∃ r, webhooks cs = .ok r) ∧
    webhooks badWebhookProvider = .error () := by
  constructor
  · intro cs ms vs hm hv pm pv
    obtain ⟨s1, hs1⟩ := scanWebhookConfigs_total "Mutating" ms "" pm
    obtain ⟨s2, hs2⟩ := scanWebhookConfigs_total "Validating" vs s1 pv
    simp only [webhooks, hm, hv, hs1, hs2]
    by_cases h : s2 = "" <;> simp [h]
  · rfl

/-- Witness for C10: applying the totality direction to the all-empty
snapshot yields a `Result`. -/
theorem C10_webhooks_totality_witness :
    ∃ r, webhooks emptyProvider = .ok r :=
  C10_webhooks_totality.1 emptyProvider [] [] rfl rfl
    (fun c hc => absurd hc (List.not_mem_nil c))
    (fun c hc => absurd hc (List.not_mem_nil c))

/-- C6: the registry run is a deterministic function of the provider
snapshot — two runs whose list calls return the same collections yield
identical Results for every registered check. -/
theorem C6_fixed_snapshot_deterministic (p q : Provider)
    (h1 : p.listNodes = q.listNodes)
    (h2 : ∀ a b, p.listPods a b = q.listPods a b)
    (h3 : ∀ a, p.listEndpoints a = q.listEndpoints a)
    (h4 : p.listMutatingWebhookConfigurations = q.listMutatingWebhookConfigurations)
    (h5 : p.listValidatingWebhookConfigurations = q.listValidatingWebhookConfigurations)
    (h6 : ∀ a, p.listEvents a = q.listEvents a)
    (h7 : ∀ a, p.listCronJobs a = q.listCronJobs a) :
    runChecks p = runChecks q := by
  have e2 : p.listPods = q.listPods := funext fun a => funext fun b => h2 a b
  have e3 : p.listEndpoints = q.listEndpoints := funext fun a => h3 a
  have e6 : p.listEvents = q.listEvents := funext fun a => h6 a
  have e7 : p.listCronJobs = q.listCronJobs := funext fun a => h7 a
  have hpq : p = q := by
    cases p
    cases q
    congr 1
  rw [hpq]

/-- Witness for C6 at the all-empty snapshot. -/
theorem C6_fixed_snapshot_deterministic_witness :
    runChecks emptyProvider = runChecks emptyProvider :=
  C6_fixed_snapshot_deterministic emptyProvider emptyProvider rfl
    (fun _ _ => rfl) (fun _ => rfl) rfl rfl (fun _ => rfl) (fun _ => rfl)

/-- C3: every provider-call error is contained at the check boundary —
the check that made the failing call returns a `Result` with
`pass = false` and the error populated (the webhooks check returns
normally, without reaching its fault branch) — and each check's `Result`
depends only on the provider calls that check makes, so an error seen by
one check leaves every other check's `Result` unaffected. -/
theorem C3_provider_error_contained (cs : Provider) (e : String) :
    (cs.listNodes = .error e →
      (cp cs).pass = false ∧ (cp cs).err = some e) ∧
    (cs.listEndpoints "" = .error e →
      (endpoints cs).pass = false ∧ (endpoints cs).err = some e) ∧
    (cs.listEvents "" = .error e →
      (events cs).pass = false ∧ (events cs).err = some e) ∧
    (cs.listPods "kube-system" "" = .error e →
      (infra cs).pass = false ∧ (infra cs).err = some e) ∧
    (cs.listNodes = .error e →
      (nodes cs).pass = false ∧ (nodes cs).err = some e) ∧
    (cs.listNodes = .error e →
      (overCommit cs).pass = false ∧ (overCommit cs).err = some e) ∧
    (∀ ns, cs.listNodes = .ok ns → ∀ n ∈ ns,
      cs.listPods "" ("spec.nodeName=" ++ n.name) = .error e →
      (overCommit cs).pass = false ∧ (overCommit cs).err ≠ none) ∧
    (cs.listMutatingWebhookConfigurations = .error e →
      webhooks cs = .ok ⟨"webhooks", false, "getting mutatingwebhookconfigurations", some e⟩) ∧
    (∀ ms, cs.listMutatingWebhookConfigurations = .ok ms →
      cs.listValidatingWebhookConfigurations = .error e →
      webhooks cs = .ok ⟨"webhooks", false, "gettingvalidatingwebhookconfigurations", some e⟩) ∧
    (cs.listCronJobs "" = .error e →
      (cronjob cs).pass = false ∧ (cronjob cs).err = some e) ∧
    (cs.listPods "" "" = .error e →
      (oomkilled cs).pass = false ∧ (oomkilled cs).err = some e) ∧
    (∀ q : Provider, q.listNodes = cs.listNodes → cp q = cp cs) ∧
    (∀ q : Provider, q.listEndpoints "" = cs.listEndpoints "" →
      endpoints q = endpoints cs) ∧
    (∀ q : Provider, q.listEvents "" = cs.listEvents "" → events q = events cs) ∧
    (∀ q : Provider, q.listPods "kube-system" "" = cs.listPods "kube-system" "" →
      infra q = infra cs) ∧
    (∀ q : Provider, q.listNodes = cs.listNodes → nodes q = nodes cs) ∧
    (∀ q : Provider, q.listNodes = cs.listNodes →
      (∀ sel, q.listPods "" sel = cs.listPods "" sel) → overCommit q = overCommit cs) ∧
    (∀ q : Provider,
      q.listMutatingWebhookConfigurations = cs.listMutatingWebhookConfigurations →
      q.listValidatingWebhookConfigurations = cs.listValidatingWebhookConfigurations →
      webhooks q = webhooks cs) ∧
    (∀ q : Provider, q.listCronJobs "" = cs.listCronJobs "" → cronjob q = cronjob cs) ∧
    (∀ q : Provider, q.listPods "" "" = cs.listPods "" "" →
      oomkilled q = oomkilled cs) := by
  refine ⟨?_, ?_, ?_, ?_, ?_, ?_, ?_, ?_, ?_, ?_, ?_, ?_, ?_, ?_, ?_, ?_, ?_, ?_, ?_, ?_⟩
  · intro h; simp [cp, h]
  · intro h; simp [Flare.endpoints, endpointsOf, h]
  · intro h; simp [Flare.events, eventsOf, h]
  · intro h; simp [Flare.infra, infraOf, h]
  · intro h; simp [Flare.nodes, nodesOf, h]
  · intro h; simp [overCommit, h]
  · intro ns hns n hn he
    have hoc : overCommit cs = overCommitLoop cs ns "" := by simp [overCommit, hns]
    rw [hoc]
    exact overCommitLoop_pods_err cs e ns "" n hn he
  · intro h; simp [webhooks, h]
  · intro ms hm hv; simp [webhooks, hm, hv]
  · intro h; simp [Flare.cronjob, cronjobOf, h]
  · intro h; simp [Flare.oomkilled, oomkilledOf, h]
  · intro q hq; simp only [cp, hq]
  · intro q hq; simp only [Flare.endpoints, hq]
  · intro q hq; simp only [Flare.events, hq]
  · intro q hq; simp only [Flare.infra, hq]
  · intro q hq; simp only [Flare.nodes, hq]
  · intro q h1 h2
    simp only [overCommit, h1]
    cases hn : cs.listNodes with
    | error e2 => rfl
    | ok ns => exact overCommitLoop_congr q cs h2 ns ""
  · intro q hm hv; simp only [webhooks, hm, hv]
  · intro q hq; simp only [Flare.cronjob, hq]
  · intro q hq; simp only [Flare.oomkilled, hq]

/-- Witness for C3 at the all-failing provider: the failing calls are
converted into failing Results carrying the error. -/
theorem C3_provider_error_contained_witness :
    (cp failingProvider).pass = false ∧ (cp failingProvider).err = some "boom" ∧
    (endpoints failingProvider).pass = false ∧
    (endpoints failingProvider).err = some "boom" ∧
    (infra failingProvider).pass = false ∧ (infra failingProvider).err = some "boom" ∧
    (cronjob failingProvider).pass = false ∧ (cronjob failingProvider).err = some "boom" ∧
    webhooks failingProvider =
      .ok ⟨"webhooks", false, "getting mutatingwebhookconfigurations", some "boom"⟩ := by
  obtain ⟨hcp, hend, hev, hinf, hnod, hoc1, hoc2, hwm, hwv, hcj, hoom, hrest⟩ :=
    C3_provider_error_contained failingProvider "boom"
  exact ⟨(hcp rfl).1, (hcp rfl).2, (hend rfl).1, (hend rfl).2, (hinf rfl).1,
    (hinf rfl).2, (hcj rfl).1, (hcj rfl).2, hwm rfl⟩

theorem cronChunk_ne_of_over {c : CronJob} (h : cronOver c = true) :
    cronChunk c ≠ "" := by
  rw [cronChunk, if_pos (of_decide_eq_true h)]
  exact strAppend_ne_empty_left _ (strAppend_ne_empty_right _
    (by decide : ("\n" : String) ≠ ""))

/-- C4: for every check, a failing `Result` explains itself — `pass =
false` implies non-empty details or a populated error — and `pass =
false` with no error occurs only when every provider call the check made
succeeded. -/
theorem C4_result_invariant (cs : Provider) :
    ((cp cs).pass = false → (cp cs).details ≠ "" ∨ (cp cs).err ≠ none) ∧
    ((cp cs).pass = false ∧ (cp cs).err = none → ∃ l, cs.listNodes = .ok l) ∧
    ((endpoints cs).pass = false →
      (endpoints cs).details ≠ "" ∨ (endpoints cs).err ≠ none) ∧
    ((endpoints cs).pass = false ∧ (endpoints cs).err = none →
      ∃ l, cs.listEndpoints "" = .ok l) ∧
    ((events cs).pass = false → (events cs).details ≠ "" ∨ (events cs).err ≠ none) ∧
    ((events cs).pass = false ∧ (events cs).err = none → ∃ l, cs.listEvents "" = .ok l) ∧
    ((infra cs).pass = false → (infra cs).details ≠ "" ∨ (infra cs).err ≠ none) ∧
    ((infra cs).pass = false ∧ (infra cs).err = none →
      ∃ l, cs.listPods "kube-system" "" = .ok l) ∧
    ((nodes cs).pass = false → (nodes cs).details ≠ "" ∨ (nodes cs).err ≠ none) ∧
    ((nodes cs).pass = false ∧ (nodes cs).err = none → ∃ l, cs.listNodes = .ok l) ∧
    ((overCommit cs).pass = false →
      (overCommit cs).details ≠ "" ∨ (overCommit cs).err ≠ none) ∧
    ((overCommit cs).pass = false ∧ (overCommit cs).err = none →
      ∃ l, cs.listNodes = .ok l ∧ ∀ n ∈ l,
        ∃ pl, cs.listPods "" ("spec.nodeName=" ++ n.name) = .ok pl) ∧
    ((cronjob cs).pass = false → (cronjob cs).details ≠ "" ∨ (cronjob cs).err ≠ none) ∧
    ((cronjob cs).pass = false ∧ (cronjob cs).err = none →
      ∃ l, cs.listCronJobs "" = .ok l) ∧
    ((oomkilled cs).pass = false →
      (oomkilled cs).details ≠ "" ∨ (oomkilled cs).err ≠ none) ∧
    ((oomkilled cs).pass = false ∧ (oomkilled cs).err = none →
      ∃ l, cs.listPods "" "" = .ok l) ∧
    (∀ r, webhooks cs = .ok r →
      (r.pass = false → r.details ≠ "" ∨ r.err ≠ none) ∧
      (r.pass = false ∧ r.err = none →
        ∃ ms vs, cs.listMutatingWebhookConfigurations = .ok ms ∧
          cs.listValidatingWebhookConfigurations = .ok vs)) := by
  refine ⟨?_, ?_, ?_, ?_, ?_, ?_, ?_, ?_, ?_, ?_, ?_, ?_, ?_, ?_, ?_, ?_, ?_⟩
  · intro h
    cases hn : cs.listNodes with
    | error e => right; simp [cp, hn]
    | ok l => simp [cp, hn] at h
  · rintro ⟨h, he⟩
    cases hn : cs.listNodes with
    | error e => simp [cp, hn] at he
    | ok l => exact ⟨l, rfl⟩
  · intro h
    cases hn : cs.listEndpoints "" with
    | error e => right; simp [Flare.endpoints, endpointsOf, hn]
    | ok items =>
      left
      have hE : endpoints cs = endpointsOf (.ok items) := by rw [Flare.endpoints, hn]
      rw [hE, endpointsOf_ok] at h ⊢
      by_cases hi : strFold endpointChunk items = ""
      · simp [hi] at h
      · simp [hi]
  · rintro ⟨h, he⟩
    cases hn : cs.listEndpoints "" with
    | error e => simp [Flare.endpoints, endpointsOf, hn] at he
    | ok items => exact ⟨items, rfl⟩
  · intro h
    cases hn : cs.listEvents "" with
    | error e => right; simp [Flare.events, eventsOf, hn]
    | ok items =>
      left
      have hE : events cs = eventsOf (.ok items) := by rw [Flare.events, hn]
      rw [hE, eventsOf_ok] at h ⊢
      by_cases hi : strFold eventChunk items = ""
      · simp [hi] at h
      · simp [hi]
  · rintro ⟨h, he⟩
    cases hn : cs.listEvents "" with
    | error e => simp [Flare.events, eventsOf, hn] at he
    | ok items => exact ⟨items, rfl⟩
  · intro h
    cases hn : cs.listPods "kube-system" "" with
    | error e => right; simp [Flare.infra, infraOf, hn]
    | ok pods =>
      left
      have hI : infra cs = infraOf (.ok pods) := by rw [Flare.infra, hn]
      rw [hI, infraOf_ok] at h ⊢
      by_cases hi : strFold infraChunk pods = ""
      · simp [hi] at h
      · simp [hi]
  · rintro ⟨h, he⟩
    cases hn : cs.listPods "kube-system" "" with
    | error e => simp [Flare.infra, infraOf, hn] at he
    | ok pods => exact ⟨pods, rfl⟩
  · intro h
    cases hn : cs.listNodes with
    | error e => right; simp [Flare.nodes, nodesOf, hn]
    | ok ns =>
      left
      have hN : nodes cs = nodesOf (.ok ns) := by rw [Flare.nodes, hn]
      rw [hN, nodesOf_ok] at h ⊢
      by_cases hi : strFold nodeReadyChunk ns = ""
      · simp [hi] at h
      · simp [hi]
  · rintro ⟨h, he⟩
    cases hn : cs.listNodes with
    | error e => simp [Flare.nodes, nodesOf, hn] at he
    | ok ns => exact ⟨ns, rfl⟩
  · intro h
    exact Or.inr (overCommit_pass_false_err cs h)
  · rintro ⟨h, he⟩
    exact ((overCommit_pass_false_err cs h) he).elim
  · intro h
    cases hn : cs.listCronJobs "" with
    | error e => right; simp [Flare.cronjob, cronjobOf, hn]
    | ok jobs =>
      left
      have hC : cronjob cs = cronjobOf (.ok jobs) := by rw [Flare.cronjob, hn]
      rw [hC, cronjobOf_ok] at h ⊢
      simp only [Bool.not_eq_false', List.any_eq_true] at h
      obtain ⟨j, hj, hov⟩ := h
      exact (containsSub_strFold cronChunk hj).ne_empty (cronChunk_ne_of_over hov)
  · rintro ⟨h, he⟩
    cases hn : cs.listCronJobs "" with
    | error e => simp [Flare.cronjob, cronjobOf, hn] at he
    | ok jobs => exact ⟨jobs, rfl⟩
  · intro h
    cases hn : cs.listPods "" "" with
    | error e => right; simp [Flare.oomkilled, oomkilledOf, hn]
    | ok pods =>
      left
      have hO : oomkilled cs = oomkilledOf (.ok pods) := by rw [Flare.oomkilled, hn]
      rw [hO, oomkilledOf_ok] at h ⊢
      simp only [Bool.not_eq_false', List.any_eq_true] at h
      obtain ⟨p, hp, hov⟩ := h
      have hchunk : podOomChunk p ≠ "" :=
        (podOomChunk_ne_iff p).mpr ((podOom_true_iff p).mp hov)
      exact (containsSub_strFold podOomChunk hp).ne_empty hchunk
  · rintro ⟨h, he⟩
    cases hn : cs.listPods "" "" with
    | error e => simp [Flare.oomkilled, oomkilledOf, hn] at he
    | ok pods => exact ⟨pods, rfl⟩
  · intro r hr
    cases hm : cs.listMutatingWebhookConfigurations with
    | error e =>
      simp only [webhooks, hm, Except.ok.injEq] at hr
      subst hr
      exact ⟨fun _ => Or.inl (show ("getting mutatingwebhookconfigurations" : String) ≠ ""
        by decide), fun ⟨_, he⟩ => by simp at he⟩
    | ok ms =>
      cases hv : cs.listValidatingWebhookConfigurations with
      | error e =>
        simp only [webhooks, hm, hv, Except.ok.injEq] at hr
        subst hr
        exact ⟨fun _ => Or.inl (show ("gettingvalidatingwebhookconfigurations" : String) ≠ ""
          by decide), fun ⟨_, he⟩ => by simp at he⟩
      | ok vs =>
        cases hs1 : scanWebhookConfigs "Mutating" ms "" with
        | error u => simp [webhooks, hm, hv, hs1] at hr
        | ok s1 =>
          cases hs2 : scanWebhookConfigs "Validating" vs s1 with
          | error u => simp [webhooks, hm, hv, hs1, hs2] at hr
          | ok s2 =>
            simp only [webhooks, hm, hv, hs1, hs2] at hr
            by_cases hi : s2 = ""
            · rw [if_pos hi] at hr
              simp only [Except.ok.injEq] at hr
              subst hr
              exact ⟨fun h => by simp at h, fun ⟨h, _⟩ => by simp at h⟩
            · rw [if_neg hi] at hr
              simp only [Except.ok.injEq] at hr
              subst hr
              exact ⟨fun _ => Or.inl hi, fun _ => ⟨ms, vs, rfl, rfl⟩⟩

/-- Witness for C4: the failing endpoints check of the two-object
example explains itself, and its provider call succeeded. -/
theorem C4_result_invariant_witness :
    ((endpoints endpointsExampleProvider).details ≠ "" ∨
      (endpoints endpointsExampleProvider).err ≠ none) ∧
    (∃ l, endpointsExampleProvider.listEndpoints "" = .ok l) := by
  have H := C4_result_invariant endpointsExampleProvider
  exact ⟨H.2.2.1 (by decide), H.2.2.2.1 ⟨by decide, by decide⟩⟩

end Flare
